import Mathlib

/-!
Shallow embedding of the `cural` crate (src/src/process.rs, src/src/module.rs):
a Windows process/module enumeration and foreign-memory access library.

The OS (ToolHelp snapshots, OpenProcess, CloseHandle, ReadProcessMemory,
WriteProcessMemory) is an external collaborator; it is modelled as explicit
world data passed to each embedded function.  Each embedded operation returns
its result together with the list of OS resource events it performs
(snapshot creation, process-handle opening, handle release), so that
handle-lifecycle claims can be stated about the event trace.
-/

/-- The constant `windows::Win32::Foundation::INVALID_HANDLE_VALUE` (-1 as a raw handle),
viewed as an unsigned 64-bit pattern. -/
def INVALID_HANDLE_VALUE : Nat := 2 ^ 64 - 1

/-- Error kinds used by the library (`std::io::ErrorKind` values that appear
in process.rs). -/
inductive IoErrorKind where
  | Interrupted
  | InvalidData
  | NotFound
deriving DecidableEq, Repr

/-- A ToolHelp `PROCESSENTRY32` record: process id and the fixed-capacity,
null-padded executable-name byte buffer `szExeFile`. -/
structure ProcessEntry where
  th32ProcessID : Nat
  szExeFile : List Nat
deriving DecidableEq, Repr

/-- A ToolHelp `MODULEENTRY32` record: the fixed-capacity, null-padded
module-name byte buffer `szModule` and the module base address. -/
structure ModuleEntry where
  szModule : List Nat
  modBaseAddr : Nat
deriving DecidableEq, Repr

/-- The name-decoding applied to every fixed-capacity buffer in process.rs:
`buf.into_iter().take_while(|byte| byte != &0).map(|byte| byte as char)`.
Bytes up to (not including) the first zero byte, each interpreted as a
single-byte character. -/
def decodeChars (buf : List Nat) : List Char :=
  (buf.takeWhile (fun byte => byte ≠ 0)).map Char.ofNat

/-- The decoded buffer collected into a `String` (Rust `collect::<String>()`). -/
def decodeString (buf : List Nat) : String :=
  String.mk (decodeChars buf)

/-- The `cural::Module` struct (module.rs): decoded name and base load address.
(Qualified with the crate name because `Module` is taken by Mathlib.) -/
structure cural.Module where
  name : String
  address : Nat
deriving DecidableEq, Repr

/-- The `cural::Process` struct (process.rs): `#[derive(Clone)]`, with fields
`id: u32`, `name: String`, `handle: HANDLE` — the handle is a raw OS handle value. -/
structure Process where
  id : Nat
  name : String
  handle : Nat
deriving DecidableEq, Repr

/-- Clone semantics of `Process` (`#[derive(Clone)]`): every field is cloned; `HANDLE` is a
plain `Copy` wrapper around the raw handle value, so the clone carries the
same raw handle.  No reference counting is introduced. -/
def Process.clone (p : Process) : Process :=
  { id := p.id, name := p.name, handle := p.handle }

/-- OS-visible resource events performed by the library. -/
inductive OsEvent where
  | createSnapshot (h : Nat)
  | openProc (pid : Nat) (ok : Bool)
  | closeHandle (h : Nat)
deriving DecidableEq, Repr

/-- OS-visible events of dropping a `Process` value: the struct has no `Drop`
impl, and its fields (`u32`, `String`, `HANDLE`) perform no OS handle
operation when dropped, so no `CloseHandle` is ever issued for the process
handle by the library. -/
def Process.dropEvents (_ : Process) : List OsEvent := []

/-- The OS world seen by the process-flavor operations (`Process::all`,
`Process::find`): the result of `CreateToolhelp32Snapshot(TH32CS_SNAPPROCESS, 0)`
(`none` = `Err`), the sequence of `PROCESSENTRY32` records the snapshot
enumerates (process flavor: `Process32Next` yields them in order from the
start), the outcome of `OpenProcess(PROCESS_ALL_ACCESS, false, pid)` per pid
(`none` = `Err`), and the `HANDLE::is_invalid` predicate of the binding layer. -/
structure OsWorld where
  snapHandle : Option Nat
  procs : List ProcessEntry
  openProcess : Nat → Option Nat
  invalid : Nat → Bool

/-- The `while Process32Next { ... }` loop body of `Process::all`
(process.rs lines 70-89): open a handle per record, skip the record on
`Err` or on an invalid handle, otherwise decode the name and collect. -/
def allLoop (w : OsWorld) : List ProcessEntry → List Process × List OsEvent
  | [] => ([], [])
  | e :: rest =>
    match w.openProcess e.th32ProcessID with
    | none =>
      let (ps, evs) := allLoop w rest
      (ps, OsEvent.openProc e.th32ProcessID false :: evs)
    | some hd =>
      let (ps, evs) := allLoop w rest
      if w.invalid hd then
        (ps, OsEvent.openProc e.th32ProcessID true :: evs)
      else
        ({ id := e.th32ProcessID, name := decodeString e.szExeFile, handle := hd } :: ps,
         OsEvent.openProc e.th32ProcessID true :: evs)

/-- Embedding of `Process::all` (process.rs lines 50-93). -/
def Process.all (w : OsWorld) : Except IoErrorKind (List Process) × List OsEvent :=
  match w.snapHandle with
  | none => (Except.error IoErrorKind.Interrupted, [])
  | some snapshot =>
    if snapshot = INVALID_HANDLE_VALUE then
      (Except.error IoErrorKind.Interrupted, [OsEvent.createSnapshot snapshot])
    else
      let (ps, evs) := allLoop w w.procs
      (Except.ok ps,
       OsEvent.createSnapshot snapshot :: (evs ++ [OsEvent.closeHandle snapshot]))

/-- The `while Process32Next { ... }` loop of `Process::find`
(process.rs lines 121-148): skip records whose decoded name differs from
`name`; on the first match open a process handle — on `Err` the `?`
propagates `Interrupted` *before* the `CloseHandle(snapshot)` line runs;
on `Ok` the snapshot is closed, then an invalid handle yields `InvalidData`,
otherwise the `Process` is returned.  Falling off the loop yields `NotFound`
with no `CloseHandle`. -/
def findLoop (w : OsWorld) (snapshot : Nat) (name : String) :
    List ProcessEntry → Except IoErrorKind Process × List OsEvent
  | [] => (Except.error IoErrorKind.NotFound, [])
  | e :: rest =>
    let c_name := decodeString e.szExeFile
    if name ≠ c_name then
      findLoop w snapshot name rest
    else
      match w.openProcess e.th32ProcessID with
      | none =>
        (Except.error IoErrorKind.Interrupted,
         [OsEvent.openProc e.th32ProcessID false])
      | some hd =>
        if w.invalid hd then
          (Except.error IoErrorKind.InvalidData,
           [OsEvent.openProc e.th32ProcessID true, OsEvent.closeHandle snapshot])
        else
          (Except.ok { id := e.th32ProcessID, name := c_name, handle := hd },
           [OsEvent.openProc e.th32ProcessID true, OsEvent.closeHandle snapshot])

/-- Embedding of `Process::find` (process.rs lines 103-154). -/
def Process.find (w : OsWorld) (name : String) :
    Except IoErrorKind Process × List OsEvent :=
  match w.snapHandle with
  | none => (Except.error IoErrorKind.Interrupted, [])
  | some snapshot =>
    if snapshot = INVALID_HANDLE_VALUE then
      (Except.error IoErrorKind.Interrupted, [OsEvent.createSnapshot snapshot])
    else
      let (r, evs) := findLoop w snapshot name w.procs
      (r, OsEvent.createSnapshot snapshot :: evs)

/-- The OS world seen by the module-flavor operations (`Process::get_module`,
`Process::get_all_modules`): the result of
`CreateToolhelp32Snapshot(TH32CS_SNAPMODULE | TH32CS_SNAPMODULE32, self.id)`
and the sequence of `MODULEENTRY32` records in the snapshot, in enumeration
order. -/
structure ModWorld where
  snapHandle : Option Nat
  mods : List ModuleEntry

/-- Modelled from the spec: the ToolHelp module enumeration protocol is an OS
service outside this repository.  Per §4.2/§9 of the spec, `Module32First`
returns the first record and positions the session so `Module32Next` yields
the records after it, while calling `Module32Next` on a fresh module-flavor
session (without `Module32First`) silently skips the very first enumerable
module and yields the records from the second onward.  This function gives
the record sequence seen by a Next-only consumer of a fresh session. -/
def moduleNextOnlySeq (mods : List ModuleEntry) : List ModuleEntry :=
  mods.drop 1

/-- The `while Module32Next { ... }` loop of `Process::get_module`
(process.rs lines 228-241): skip records whose decoded name differs from
`module`; on the first match close the snapshot and return the `Module`.
Falling off the loop yields `NotFound` with no `CloseHandle`. -/
def getModuleLoop (snapshot : Nat) (module : String) :
    List ModuleEntry → Except IoErrorKind cural.Module × List OsEvent
  | [] => (Except.error IoErrorKind.NotFound, [])
  | e :: rest =>
    let c_module := decodeString e.szModule
    if c_module ≠ module then
      getModuleLoop snapshot module rest
    else
      (Except.ok { name := c_module, address := e.modBaseAddr },
       [OsEvent.closeHandle snapshot])

/-- Embedding of `Process::get_module` (process.rs lines 210-247). -/
def Process.get_module (w : ModWorld) (module : String) :
    Except IoErrorKind cural.Module × List OsEvent :=
  match w.snapHandle with
  | none => (Except.error IoErrorKind.Interrupted, [])
  | some snapshot =>
    if snapshot = INVALID_HANDLE_VALUE then
      (Except.error IoErrorKind.Interrupted, [OsEvent.createSnapshot snapshot])
    else
      let (r, evs) := getModuleLoop snapshot module (moduleNextOnlySeq w.mods)
      (r, OsEvent.createSnapshot snapshot :: evs)

/-- The push/`Module32Next` loop of `Process::get_all_modules`
(process.rs lines 280-291): decode and append the current record, advance,
stop when `Module32Next` reports no further entries. -/
def getAllModulesLoop : List ModuleEntry → List cural.Module
  | [] => []
  | e :: rest =>
    { name := decodeString e.szModule, address := e.modBaseAddr }
      :: getAllModulesLoop rest

/-- Embedding of `Process::get_all_modules` (process.rs lines 257-296).  When
`Module32First` reports no entries the function returns `Ok(vec![])`
immediately — without the `CloseHandle(snapshot)` that the non-empty path
performs after its loop. -/
def Process.get_all_modules (w : ModWorld) :
    Except IoErrorKind (List cural.Module) × List OsEvent :=
  match w.snapHandle with
  | none => (Except.error IoErrorKind.Interrupted, [])
  | some snapshot =>
    if snapshot = INVALID_HANDLE_VALUE then
      (Except.error IoErrorKind.Interrupted, [OsEvent.createSnapshot snapshot])
    else
      match w.mods with
      | [] => (Except.ok [], [OsEvent.createSnapshot snapshot])
      | e :: rest =>
        (Except.ok (getAllModulesLoop (e :: rest)),
         [OsEvent.createSnapshot snapshot, OsEvent.closeHandle snapshot])

/-- The local buffer of `Process::read` after the `ReadProcessMemory` call:
it starts as `mem::zeroed::<T>()` (`size` zero bytes); on OS failure it is
left unchanged, and on success the bytes the OS copied (possibly fewer than
requested) overwrite the front of the buffer. -/
def readBuffer (copied : Option (List Nat)) (size : Nat) : List Nat :=
  match copied with
  | none => List.replicate size 0
  | some bs => bs.take size ++ List.replicate (size - bs.length) 0

/-- The memory-copy service seen by `Process::read`:
`ReadProcessMemory(handle, address, buffer, size, None)` either fails
(`none`) or copies a prefix of bytes into the buffer. -/
structure MemWorld where
  copyOut : Nat → Nat → Option (List Nat)

/-- Embedding of `Process::read::<T>` (process.rs lines 164-180), with `T` represented by
its byte size and a decoding of a byte buffer into a value.  The OS result
is discarded: the (possibly untouched) buffer is always returned. -/
def Process.read {α : Type} (size : Nat) (decode : List Nat → α)
    (w : MemWorld) (address : Nat) : α :=
  decode (readBuffer (w.copyOut address size) size)

/-- A byte of process memory, addressed absolutely. -/
def Mem : Type := Nat → Nat

/-- Writing a byte sequence at an address: the semantics of a successful
`WriteProcessMemory(handle, address, &value, size, None)` on the target
memory. -/
def writeMem (m : Mem) (address : Nat) (bs : List Nat) : Mem :=
  fun a => if address ≤ a ∧ a < address + bs.length then bs.getD (a - address) 0 else m a

/-- Embedding of `Process::write::<T>` (process.rs lines 190-200), with the value
represented by its byte-for-byte in-memory representation: copies exactly
those `size_of::<T>()` bytes to `address` in the target memory.  The OS
result is discarded (the function returns `()`), so the updated memory is
the whole effect. -/
def Process.write (m : Mem) (valueBytes : List Nat) (address : Nat) : Mem :=
  writeMem m address valueBytes

/-- The copy-out service of a cooperating process whose memory is `m` and for
which the copy succeeds: `ReadProcessMemory` returns the requested bytes. -/
def memCopyOut (m : Mem) : MemWorld :=
  ⟨fun address size => some ((List.range size).map (fun i => m (address + i)))⟩

/-- The little-endian 4-byte representation of a 32-bit integer (the
fixed layout `T = u32`/`i32` has on the targeted platform). -/
def encodeU32 (v : Nat) : List Nat :=
  [v % 256, v / 256 % 256, v / 65536 % 256, v / 16777216 % 256]

/-- Reassembling a 32-bit integer from its little-endian 4-byte buffer. -/
def decodeU32 (bs : List Nat) : Nat :=
  bs.getD 0 0 + 256 * bs.getD 1 0 + 65536 * bs.getD 2 0 + 16777216 * bs.getD 3 0

/-- Whether `Process::all` keeps the record: `OpenProcess` succeeded and the
returned handle is not invalid. -/
def openable (w : OsWorld) (e : ProcessEntry) : Bool :=
  match w.openProcess e.th32ProcessID with
  | none => false
  | some hd => !w.invalid hd

/-- The `Process` value `Process::all` builds from a kept record. -/
def procOf (w : OsWorld) (e : ProcessEntry) : Process :=
  { id := e.th32ProcessID, name := decodeString e.szExeFile,
    handle := (w.openProcess e.th32ProcessID).getD 0 }

/-- A process world whose only record is named `"a"` (pid 5), snapshot
handle 3, every `OpenProcess` succeeding with handle `100 + pid`. -/
def wFind : OsWorld :=
  { snapHandle := some 3, procs := [{ th32ProcessID := 5, szExeFile := [97, 0, 104] }],
    openProcess := fun pid => some (100 + pid), invalid := fun _ => false }

/-- Like `wFind` but every `OpenProcess` call fails. -/
def wOpenFail : OsWorld :=
  { snapHandle := some 3, procs := [{ th32ProcessID := 5, szExeFile := [97, 0, 104] }],
    openProcess := fun _ => none, invalid := fun _ => false }

/-- A process world with three records: pid 5 named `"x"`, pid 7 named `"t"`,
pid 9 named `"t"`; `OpenProcess` fails for pid 5 and succeeds with handle
`100 + pid` otherwise. -/
def wMulti : OsWorld :=
  { snapHandle := some 3,
    procs := [{ th32ProcessID := 5, szExeFile := [120, 0] },
              { th32ProcessID := 7, szExeFile := [116, 0] },
              { th32ProcessID := 9, szExeFile := [116, 0] }],
    openProcess := fun pid => if pid = 5 then none else some (100 + pid),
    invalid := fun _ => false }

/-- A module world with an empty module list (snapshot handle 9). -/
def wEmptyMods : ModWorld := { snapHandle := some 9, mods := [] }

/-- A module world with two modules, `"a"` at 4096 and `"b"` at 8192. -/
def wTwoMods : ModWorld :=
  { snapHandle := some 9,
    mods := [{ szModule := [97, 0], modBaseAddr := 4096 },
             { szModule := [98, 0], modBaseAddr := 8192 }] }

/-- A module world whose single module is named `"a"`, based at 4096. -/
def wOneMod : ModWorld :=
  { snapHandle := some 9, mods := [{ szModule := [97, 0], modBaseAddr := 4096 }] }

/-- A concrete `Process` value holding raw handle 5. -/
def pC2 : Process := { id := 1, name := "x", handle := 5 }

/-! ## Helper lemmas -/

theorem writeMem_get (m : Mem) (address i : Nat) (bs : List Nat)
    (h : i < bs.length) :
    writeMem m address bs (address + i) = bs.getD i 0 := by
  unfold writeMem
  rw [if_pos ⟨Nat.le_add_right _ _, by omega⟩]
  congr 1
  omega

theorem allLoop_filter (w : OsWorld) (l : List ProcessEntry) :
    (allLoop w l).1 = (l.filter (openable w)).map (procOf w) := by
  induction l with
  | nil => rfl
  | cons e rest ih =>
    cases hop : w.openProcess e.th32ProcessID with
    | none =>
      have ho : openable w e = false := by unfold openable; rw [hop]
      simp [allLoop, hop, List.filter_cons, ho, ih]
    | some hd =>
      cases hinv : w.invalid hd with
      | false =>
        have ho : openable w e = true := by unfold openable; rw [hop]; simp [hinv]
        have hp : procOf w e
            = { id := e.th32ProcessID, name := decodeString e.szExeFile, handle := hd } := by
          unfold procOf; rw [hop]; rfl
        simp [allLoop, hop, hinv, List.filter_cons, ho, hp, ih]
      | true =>
        have ho : openable w e = false := by unfold openable; rw [hop]; simp [hinv]
        simp [allLoop, hop, hinv, List.filter_cons, ho, ih]

/-! ## Claim theorems -/

/-- C9: the decoded name of a fixed-capacity buffer consists of exactly the
bytes before the first zero byte, each interpreted as a single-byte
character; bytes at or after the first zero byte are never included. -/
theorem decode_stops_at_first_zero (pre garbage : List Nat)
    (h : ∀ b ∈ pre, b ≠ 0) :
    decodeString (pre ++ 0 :: garbage) = String.mk (pre.map Char.ofNat) := by
  unfold decodeString decodeChars
  congr 1
  induction pre with
  | nil => simp
  | cons b bs ih =>
    have hb : b ≠ 0 := h b (List.mem_cons_self b bs)
    have ih2 := ih (fun x hx => h x (List.mem_cons_of_mem b hx))
    simp only [List.cons_append, List.takeWhile_cons, List.map_cons]
    simp only [hb, decide_True, ne_eq, not_false_eq_true, if_true, List.map_cons]
    exact congrArg (List.cons (Char.ofNat b)) ih2

/-- C9 witness: `['a','b','c',0,'h','i']` decodes to `"abc"`. -/
theorem decode_stops_at_first_zero_witness :
    (∀ b ∈ [97, 98, 99], b ≠ 0) ∧
    decodeString ([97, 98, 99] ++ 0 :: [104, 105]) = "abc" := by
  refine ⟨by decide, ?_⟩
  rw [decode_stops_at_first_zero [97, 98, 99] [104, 105] (by decide)]
  rfl

/-- C3: `Process::read` fills a buffer of exactly `size_of::<T>()` bytes and
always returns a decoded value — never an error; when the OS copy fails the
caller receives the zero-initialized buffer unchanged, which is
indistinguishable from a successful copy out of all-zero memory. -/
theorem read_never_errors_zero_on_failure {α : Type} (size : Nat)
    (decode : List Nat → α) (w : MemWorld) (address : Nat) :
    (readBuffer (w.copyOut address size) size).length = size ∧
    (w.copyOut address size = none →
      Process.read size decode w address = decode (List.replicate size 0) ∧
      Process.read size decode w address
        = Process.read size decode (memCopyOut (fun _ => 0)) address) := by
  constructor
  · cases hc : w.copyOut address size with
    | none => simp [readBuffer]
    | some bs =>
      simp [readBuffer]
      omega
  · intro hfail
    have hm : (List.range size).map (fun _ => (0 : Nat)) = List.replicate size 0 := by
      simp [List.map_const']
    constructor
    · simp [Process.read, hfail, readBuffer]
    · simp [Process.read, hfail, readBuffer, memCopyOut, hm]

/-- C3 witness: a 2-byte read through an always-failing copy service yields
the 2-byte zero buffer. -/
theorem read_never_errors_zero_on_failure_witness :
    (MemWorld.mk (fun _ _ => none)).copyOut 0 2 = none ∧
    ((readBuffer ((MemWorld.mk (fun _ _ => none)).copyOut 0 2) 2).length = 2 ∧
      Process.read 2 id (MemWorld.mk (fun _ _ => none)) 0 = id (List.replicate 2 0) ∧
      Process.read 2 id (MemWorld.mk (fun _ _ => none)) 0
        = Process.read 2 id (memCopyOut (fun _ => 0)) 0) := by
  have h := read_never_errors_zero_on_failure 2 id (MemWorld.mk (fun _ _ => none)) 0
  exact ⟨rfl, h.1, (h.2 rfl).1, (h.2 rfl).2⟩

/-- C4: writing the byte representation of a 32-bit value at an address of a
cooperating (writable) process and reading `size_of::<T>() = 4` bytes back
from the same address returns the written value. -/
theorem write_read_roundtrip (m : Mem) (address v : Nat) (h : v < 2 ^ 32) :
    Process.read 4 decodeU32
      (memCopyOut (Process.write m (encodeU32 v) address)) address = v := by
  have hlen : (encodeU32 v).length = 4 := rfl
  have e0 : Process.write m (encodeU32 v) address (address + 0) = v % 256 := by
    unfold Process.write
    rw [writeMem_get _ _ _ _ (by rw [hlen]; omega)]
    simp [encodeU32]
  have e1 : Process.write m (encodeU32 v) address (address + 1) = v / 256 % 256 := by
    unfold Process.write
    rw [writeMem_get _ _ _ _ (by rw [hlen]; omega)]
    simp [encodeU32]
  have e2 : Process.write m (encodeU32 v) address (address + 2) = v / 65536 % 256 := by
    unfold Process.write
    rw [writeMem_get _ _ _ _ (by rw [hlen]; omega)]
    simp [encodeU32]
  have e3 : Process.write m (encodeU32 v) address (address + 3) = v / 16777216 % 256 := by
    unfold Process.write
    rw [writeMem_get _ _ _ _ (by rw [hlen]; omega)]
    simp [encodeU32]
  have hrange : List.range 4 = [0, 1, 2, 3] := rfl
  simp only [Process.read, memCopyOut, hrange, List.map_cons, List.map_nil]
  rw [e0, e1, e2, e3]
  simp [readBuffer, decodeU32]
  omega

/-- C4 witness: round trip of the concrete value `0x12345678` at address 16
over an all-zero memory. -/
theorem write_read_roundtrip_witness :
    305419896 < 2 ^ 32 ∧
    Process.read 4 decodeU32
      (memCopyOut (Process.write (fun _ => 0) (encodeU32 305419896) 16)) 16
      = 305419896 :=
  ⟨by norm_num, write_read_roundtrip (fun _ => 0) 16 305419896 (by norm_num)⟩

theorem findLoop_spec (w : OsWorld) (s : Nat) (name : String)
    (l : List ProcessEntry) :
    (∀ e hd, l.find? (fun en => decodeString en.szExeFile == name) = some e →
        w.openProcess e.th32ProcessID = some hd → w.invalid hd = false →
        (findLoop w s name l).1
          = Except.ok { id := e.th32ProcessID, name := name, handle := hd }) ∧
    ((findLoop w s name l).1 = Except.error IoErrorKind.NotFound ↔
        ∀ e ∈ l, decodeString e.szExeFile ≠ name) := by
  induction l with
  | nil =>
    constructor
    · intro e hd hfind
      simp at hfind
    · simp [findLoop]
  | cons a rest ih =>
    by_cases hm : name = decodeString a.szExeFile
    · have hpred : (decodeString a.szExeFile == name) = true := by simp [hm]
      have hnot : (findLoop w s name (a :: rest)).1
          ≠ Except.error IoErrorKind.NotFound := by
        cases hop : w.openProcess a.th32ProcessID with
        | none => simp [findLoop, hm, hop]
        | some hd =>
          cases hinv : w.invalid hd with
          | false => simp [findLoop, hm, hop, hinv]
          | true => simp [findLoop, hm, hop, hinv]
      constructor
      · intro e hd hfind hop hinv
        simp only [List.find?_cons, hpred, Option.some.injEq] at hfind
        subst hfind
        simp [findLoop, hm, hop, hinv]
      · constructor
        · intro hres
          exact absurd hres hnot
        · intro hall
          exact absurd hm.symm (hall a (List.mem_cons_self a rest))
    · have hpred : (decodeString a.szExeFile == name) = false := by
        rw [beq_eq_false_iff_ne]
        exact fun hc => hm hc.symm
      have hstep : findLoop w s name (a :: rest) = findLoop w s name rest := by
        simp [findLoop, hm]
      have hfindeq : List.find? (fun en => decodeString en.szExeFile == name) (a :: rest)
          = List.find? (fun en => decodeString en.szExeFile == name) rest := by
        simp only [List.find?_cons, hpred]
      constructor
      · intro e hd hfind hop hinv
        rw [hfindeq] at hfind
        rw [hstep]
        exact ih.1 e hd hfind hop hinv
      · rw [hstep, ih.2]
        constructor
        · intro hall e he
          rcases List.mem_cons.mp he with rfl | hmem
          · exact fun hc => hm hc.symm
          · exact hall e hmem
        · intro hall e he
          exact hall e (List.mem_cons_of_mem a he)

/-- C5: `Process::find` returns the first enumerated record whose decoded
name is an exact, case-sensitive match, as a `Process` carrying that
record process id (and the opened handle), and reports `NotFound` exactly
when the whole snapshot is enumerated without any match. -/
theorem find_first_match (w : OsWorld) (name : String) (s : Nat)
    (hsnap : w.snapHandle = some s) (hval : s ≠ INVALID_HANDLE_VALUE) :
    (∀ e hd, w.procs.find? (fun en => decodeString en.szExeFile == name) = some e →
        w.openProcess e.th32ProcessID = some hd → w.invalid hd = false →
        (Process.find w name).1
          = Except.ok { id := e.th32ProcessID, name := name, handle := hd }) ∧
    ((Process.find w name).1 = Except.error IoErrorKind.NotFound ↔
        ∀ e ∈ w.procs, decodeString e.szExeFile ≠ name) := by
  have hmain := findLoop_spec w s name w.procs
  have hred : (Process.find w name).1 = (findLoop w s name w.procs).1 := by
    simp [Process.find, hsnap, hval]
  exact ⟨fun e hd h1 h2 h3 => by rw [hred]; exact hmain.1 e hd h1 h2 h3,
         by rw [hred]; exact hmain.2⟩

/-- C5 witness: in `wMulti` the name `"t"` first matches the record with
pid 7 (pid 9 also matches but comes later), and `find` returns pid 7. -/
theorem find_first_match_witness :
    wMulti.snapHandle = some 3 ∧ (3 : Nat) ≠ INVALID_HANDLE_VALUE ∧
    (Process.find wMulti "t").1
      = Except.ok { id := 7, name := "t", handle := 107 } := by
  refine ⟨rfl, by decide, ?_⟩
  exact (find_first_match wMulti "t" 3 rfl (by decide)).1
    { th32ProcessID := 7, szExeFile := [116, 0] } 107 (by decide) rfl rfl

/-- C6: `Process::all` silently skips every enumerated record for which
`OpenProcess` fails (or returns an invalid handle), continues the
enumeration, and returns the remaining processes as a success. -/
theorem all_skips_unopenable (w : OsWorld) (s : Nat)
    (hsnap : w.snapHandle = some s) (hval : s ≠ INVALID_HANDLE_VALUE) :
    (Process.all w).1
      = Except.ok ((w.procs.filter (openable w)).map (procOf w)) := by
  have hred : (Process.all w).1 = Except.ok (allLoop w w.procs).1 := by
    simp [Process.all, hsnap, hval]
  rw [hred, allLoop_filter]

/-- C6 witness: in `wMulti` the record with pid 5 cannot be opened and is
skipped; `all` still succeeds with the two remaining processes. -/
theorem all_skips_unopenable_witness :
    wMulti.snapHandle = some 3 ∧
    (Process.all wMulti).1
      = Except.ok ((wMulti.procs.filter (openable wMulti)).map (procOf wMulti)) :=
  ⟨rfl, all_skips_unopenable wMulti 3 rfl (by decide)⟩

/-- C1: contrary to the release-on-every-exit-path claim, `Process::find`
leaks the process-flavor snapshot handle on the exhausted/`NotFound` exit
and on the handle-open-failure exit: in both traces the snapshot (handle 3)
is created but never passed to `CloseHandle`. -/
theorem find_leaks_snapshot :
    (Process.find wFind "b").1 = Except.error IoErrorKind.NotFound ∧
    (Process.find wFind "b").2 = [OsEvent.createSnapshot 3] ∧
    (Process.find wOpenFail "a").1 = Except.error IoErrorKind.Interrupted ∧
    (Process.find wOpenFail "a").2
      = [OsEvent.createSnapshot 3, OsEvent.openProc 5 false] := by
  refine ⟨?_, ?_, ?_, ?_⟩ <;> rfl

/-- C2 counterexample: duplicating the concrete `Process` value `pC2`
(raw handle 5) with `Clone` and dropping both owners releases the handle
zero times — not exactly once when the last owner is done. -/
theorem process_clone_drop_releases_zero_times :
    (Process.clone pC2).handle = pC2.handle ∧
    ¬ (Process.dropEvents pC2
        ++ Process.dropEvents (Process.clone pC2)).count
          (OsEvent.closeHandle pC2.handle) = 1 := by
  decide

/-- C2 (amended): a `Process` carries a bitwise-copied raw handle value:
`Clone` duplicates the raw handle, and the library itself never releases a
process handle — dropping every owner performs zero `CloseHandle` calls. -/
theorem process_handle_raw_copy_never_released (p : Process) :
    Process.clone p = p ∧ (Process.clone p).handle = p.handle ∧
    (Process.dropEvents p ++ Process.dropEvents (Process.clone p)).count
      (OsEvent.closeHandle p.handle) = 0 :=
  ⟨rfl, rfl, rfl⟩

/-- C7: when `Module32First` reports no entries, `Process::get_all_modules`
does return `Ok(vec![])` (a success), but — contrary to the release part of
the claim — its event trace contains no `CloseHandle`: the module-flavor
snapshot (handle 9) is leaked on this early return. -/
theorem get_all_modules_empty_ok_but_leaks :
    Process.get_all_modules wEmptyMods
      = (Except.ok [], [OsEvent.createSnapshot 9]) := by
  rfl

/-- C8: on exhaustion without a match, `Process::get_module` reports
`NotFound`, but — contrary to the release part of the claim — its event
trace contains no `CloseHandle`: the module-flavor snapshot (handle 9) is
leaked on that exit (the match exit does close it first). -/
theorem get_module_notFound_leaks :
    (Process.get_module wTwoMods "z").1 = Except.error IoErrorKind.NotFound ∧
    (Process.get_module wTwoMods "z").2 = [OsEvent.createSnapshot 9] ∧
    (Process.get_module wTwoMods "b").2
      = [OsEvent.createSnapshot 9, OsEvent.closeHandle 9] := by
  refine ⟨?_, ?_, ?_⟩ <;> rfl

/-- C10: `get_all_modules` starts with `Module32First` while `get_module`
starts with `Module32Next` on a fresh session, so the result of `get_module`
never depends on the first enumerable record, and in the one-module world
`get_all_modules` returns the module `"a"` whose exact name `get_module`
then fails to find (`NotFound`). -/
theorem get_module_skips_first_module :
    (∀ (snap : Option Nat) (e e' : ModuleEntry) (rest : List ModuleEntry)
        (name : String),
        Process.get_module { snapHandle := snap, mods := e :: rest } name
          = Process.get_module { snapHandle := snap, mods := e' :: rest } name) ∧
    (Process.get_all_modules wOneMod).1
      = Except.ok [{ name := "a", address := 4096 }] ∧
    (Process.get_module wOneMod "a").1 = Except.error IoErrorKind.NotFound := by
  refine ⟨?_, rfl, rfl⟩
  intro snap e e' rest name
  cases snap with
  | none => rfl
  | some s => simp [Process.get_module, moduleNextOnlySeq]
